import Mathlib

/-!
Verification of the PolyTrack alert evaluation engine.

This file gives a shallow embedding of the cron batch job that evaluates
user-configured alerts against market snapshots (the `POST` route handler
and its helpers), together with theorems about its behaviour.

Modelling conventions:
* JavaScript strings are `List Char` (called `Str` below); JS string
  truthiness (`""`, `null`, `undefined` are falsy) is modelled explicitly.
* JS numbers are modelled as rationals `ℚ`; the literal `1.2` is exact.
* A `Map` is an association list; `set` prepends and `get` returns the
  most recently set binding, which is observationally the same as the
  mutable `Map` for `get`/`set`.
* Promises that the handler `await`s are modelled by `Except Unit`:
  `.error` is a rejected promise, i.e. a thrown exception at the `await`.
* External collaborators (Supabase queries, the Resend client, the
  Polymarket fetch) are oracles bundled in a `CronEnv`; the calls the
  handler makes to them are recorded in a trace of `CronEvent`s.
-/

namespace PolyTrack

abbrev Str := List Char

/-- Outcome record of a normalized market snapshot (`MarketOutcome` in
`lib/polymarket`). -/
structure MarketOutcome where
  id : Str
  label : Str
  price : ℚ
  probability : ℚ
  volume : ℚ
deriving DecidableEq

/-- Normalized market snapshot (`MarketData` in `lib/polymarket`).
`favoriteOutcomeId` is `string | null`, hence an `Option`. -/
structure MarketData where
  slug : Str
  title : Str
  totalVolume : ℚ
  outcomes : List MarketOutcome
  favoriteOutcomeId : Option Str
deriving DecidableEq

/-- A single threshold condition (`AlertCondition` in `types`).  The
`metric` and `operator` fields are strings in the database row, so they
are kept as strings here: the evaluator has explicit behaviour for
unrecognized values. -/
structure AlertCondition where
  metric : Str
  operator : Str
  value : ℚ
deriving DecidableEq

/-- A custom rule: a combinator over conditions (`AlertRule` in `types`). -/
structure AlertRule where
  operator : Str
  conditions : List AlertCondition
deriving DecidableEq

/-- A row of the `alerts` table as read by the cron route (`AlertRow`). -/
structure AlertRow where
  id : Str
  user_id : Str
  market_slug : Str
  type : Str
  preset_type : Option Str
  custom_settings : Option AlertRule
  last_triggered_at : Option Str
deriving DecidableEq

/-- `Map.get`: first binding for the key, `none` when absent. -/
def mapGet {α : Type} (k : Str) : List (Str × α) → Option α
  | [] => none
  | (k', v) :: rest => if k' = k then some v else mapGet k rest

/-- `Map.set`: prepend the new binding; `mapGet` sees the newest one. -/
def mapSet {α : Type} (k : Str) (v : α) (m : List (Str × α)) : List (Str × α) :=
  (k, v) :: m

deriving instance DecidableEq for Except

/-- The module-level mutable caches of the cron route:
`marketCache`, `favoriteOutcomeCache`, `volumeCache`, `userEmailCache`.
A market cache entry is the settled promise of the upstream fetch, so a
failed fetch is memoized as `.error`.  A favorite cache entry is
`string | null`, hence `Option Str`. -/
structure EngineState where
  marketCache : List (Str × Except Unit MarketData)
  favoriteOutcomeCache : List (Str × Option Str)
  volumeCache : List (Str × ℚ)
  userEmailCache : List (Str × Option Str)
deriving DecidableEq

/-- The caches as created at module load: all empty. -/
def initState : EngineState :=
  { marketCache := [], favoriteOutcomeCache := [], volumeCache := [], userEmailCache := [] }

/-- Whether `pat` occurs at the start of `s` (character-wise). -/
def listStartsWith : Str → Str → Bool
  | [], _ => true
  | _ :: _, [] => false
  | p :: ps, c :: cs => p = c && listStartsWith ps cs

/-- Whether `pat` occurs as a contiguous subsequence of `s`. -/
def containsSeq (pat : Str) : Str → Bool
  | [] => listStartsWith pat []
  | c :: cs => listStartsWith pat (c :: cs) || containsSeq pat cs

/-- JS `String.prototype.replace` with a string pattern: replaces only the
first occurrence of `pat` by `repl`, and returns `s` unchanged when `pat`
does not occur. -/
def jsReplaceFirst (pat repl : Str) : Str → Str
  | [] => if listStartsWith pat [] then repl else []
  | c :: cs =>
    if listStartsWith pat (c :: cs) then repl ++ (c :: cs).drop pat.length
    else c :: jsReplaceFirst pat repl cs

/-- The whitespace characters removed by JS `String.prototype.trim`
(ASCII whitespace, NBSP, BOM and the common Unicode space separators). -/
def jsWhitespace (c : Char) : Bool :=
  [9, 10, 11, 12, 13, 32, 160, 5760, 8192, 8193, 8194, 8195, 8196, 8197, 8198,
    8199, 8200, 8201, 8202, 8232, 8233, 8239, 8287, 12288, 65279].contains c.toNat

/-- JS `String.prototype.trim`: drop whitespace at both ends. -/
def jsTrim (s : Str) : Str :=
  ((s.dropWhile jsWhitespace).reverse.dropWhile jsWhitespace).reverse

/-- The literal `'Bearer '` used by `isCronAuthorized`. -/
def bearerTag : Str := "Bearer ".toList

/-- `isCronAuthorized`: reads the `authorization` header and the
`CRON_SECRET` configuration.  A missing or empty configured secret throws
(`.error`, a fatal configuration failure).  Otherwise the token is the
header with the first `'Bearer '` removed and trimmed
(`secret?.replace('Bearer ', '').trim()`), compared to the secret; a
missing header compares `undefined` to the secret, i.e. `false`. -/
def isCronAuthorized (authHeader : Option Str) (cronSecret : Option Str) : Except Unit Bool :=
  match cronSecret with
  | none => .error ()
  | some sec =>
    if sec = [] then .error ()
    else
      match authHeader with
      | none => .ok false
      | some h => .ok (decide (jsTrim (jsReplaceFirst bearerTag [] h) = sec))

/-- `evaluateWhalePreset`: read the previously recorded volume for this
alert (defaulting to the current volume when none is recorded), detect a
spike (`totalVolume > previousVolume * 1.2`) or a simulated large trade
(some outcome volume `>= 10000`), and always write the current volume
back. -/
def evaluateWhalePreset (alertId : Str) (market : MarketData) (st : EngineState) :
    Bool × EngineState :=
  let previousVolume := (mapGet alertId st.volumeCache).getD market.totalVolume
  let volumeSpike := decide (previousVolume * (1.2 : ℚ) < market.totalVolume)
  let simulatedLargeTrade := market.outcomes.any fun outcome => decide ((10000 : ℚ) ≤ outcome.volume)
  let st' := { st with volumeCache := mapSet alertId market.totalVolume st.volumeCache }
  (volumeSpike || simulatedLargeTrade, st')

/-- `evaluateFlipPreset`: read the previously recorded favorite for this
alert, always write the current favorite back (`currentFavorite ?? null`),
return `false` when either the current or the previous favorite is falsy
(`undefined`, `null` or the empty string), and otherwise trigger exactly
when the two identifiers differ. -/
def evaluateFlipPreset (alertId : Str) (market : MarketData) (st : EngineState) :
    Bool × EngineState :=
  let currentFavorite := market.favoriteOutcomeId
  let previousFavorite := mapGet alertId st.favoriteOutcomeCache
  let st' := { st with favoriteOutcomeCache := mapSet alertId currentFavorite st.favoriteOutcomeCache }
  match currentFavorite, previousFavorite with
  | some c, some (some p) =>
    if c = [] ∨ p = [] then (false, st') else (decide (c ≠ p), st')
  | _, _ => (false, st')

/-- `evaluateCondition`: resolve the metric against the snapshot
(`volume` is the total volume, `probability` and `price` come from the
first outcome, defaulting to `0` when there is none, and an unrecognized
metric resolves to `0`), then compare strictly against the threshold
(`gt` is `>`; anything else, in particular `lt`, is `<`). -/
def evaluateCondition (condition : AlertCondition) (market : MarketData) : Bool :=
  let primaryOutcome := market.outcomes.head?
  let metricValue : ℚ :=
    if condition.metric = "volume".toList then market.totalVolume
    else if condition.metric = "probability".toList then
      ((primaryOutcome.map fun o => o.probability).getD 0)
    else if condition.metric = "price".toList then
      ((primaryOutcome.map fun o => o.price).getD 0)
    else 0
  if condition.operator = "gt".toList then decide (condition.value < metricValue)
  else decide (metricValue < condition.value)

/-- `evaluateCustomRule`: an empty condition list never triggers; `AND`
requires every condition, any other combinator (i.e. `OR`) at least one. -/
def evaluateCustomRule (rule : AlertRule) (market : MarketData) : Bool :=
  if rule.conditions = [] then false
  else if rule.operator = "AND".toList then
    rule.conditions.all fun condition => evaluateCondition condition market
  else
    rule.conditions.any fun condition => evaluateCondition condition market

/-- `evaluateAlert`: dispatch on the alert kind.  `PRESET` alerts go to
the whale or flip evaluator by `preset_type` (any other preset is
`false`); other alerts evaluate their custom rule, or `false` when the
rule payload is absent. -/
def evaluateAlert (alert : AlertRow) (market : MarketData) (st : EngineState) :
    Bool × EngineState :=
  if alert.type = "PRESET".toList then
    match alert.preset_type with
    | some p =>
      if p = "WHALE".toList then evaluateWhalePreset alert.id market st
      else if p = "FLIP".toList then evaluateFlipPreset alert.id market st
      else (false, st)
    | none => (false, st)
  else
    match alert.custom_settings with
    | none => (false, st)
    | some rule => (evaluateCustomRule rule market, st)

/-- Observable calls the handler makes to its external collaborators. -/
inductive CronEvent where
  | alertsLoad
  | marketUpstream (slug : Str)
  | userUpstream (userId : Str)
  | emailSend (alertId : Str) (recipient : Str)
  | persistUpdate (alertId : Str)
  | logPersistFailure (alertId : Str)
deriving DecidableEq

/-- The external collaborators of one request, as oracles:
the configured secret and request header, the result of the bulk alert
query, what `getMarketData` resolves or rejects to per slug, what the
user-directory lookup yields per user id (`none` covers both a lookup
error and a missing email, which `resolveUserEmail` conflates), whether
the Resend send call rejects per alert id, and whether the
`last_triggered_at` update reports an error per alert id. -/
structure CronEnv where
  cronSecret : Option Str
  authHeader : Option Str
  alertsResult : Except Unit (List AlertRow)
  marketOracle : Str → Except Unit MarketData
  userOracle : Str → Option Str
  sendOracle : Str → Except Unit Unit
  persistError : Str → Bool

/-- `fetchMarket`: return the memoized promise when one exists (even a
rejected one), otherwise call `getMarketData`, memoize its settled
result, and record the upstream call. -/
def fetchMarket (env : CronEnv) (slug : Str) (st : EngineState) :
    Except Unit MarketData × EngineState × List CronEvent :=
  match mapGet slug st.marketCache with
  | some cached => (cached, st, [])
  | none =>
    let result := env.marketOracle slug
    (result, { st with marketCache := mapSet slug result st.marketCache },
      [CronEvent.marketUpstream slug])

/-- `resolveUserEmail`: return the memoized promise when one exists
(also when it resolved to `null`), otherwise call the user directory,
memoize the result, and record the upstream call.  A lookup error is
logged inside the promise and surfaces as `none`; the promise itself
never rejects. -/
def resolveUserEmail (env : CronEnv) (userId : Str) (st : EngineState) :
    Option Str × EngineState × List CronEvent :=
  match mapGet userId st.userEmailCache with
  | some cached => (cached, st, [])
  | none =>
    let result := env.userOracle userId
    (result, { st with userEmailCache := mapSet userId result st.userEmailCache },
      [CronEvent.userUpstream userId])

/-- `markAlertTriggered`: issue the `last_triggered_at` update; when the
data store reports an error, log it and return normally (the error is
not re-thrown). -/
def markAlertTriggered (env : CronEnv) (alertId : Str) : List CronEvent :=
  if env.persistError alertId then
    [CronEvent.persistUpdate alertId, CronEvent.logPersistFailure alertId]
  else
    [CronEvent.persistUpdate alertId]

/-- One iteration of the `for` loop of `POST`: fetch the market (a
rejected fetch throws out of the iteration, `.error`), evaluate, and for
a triggered alert resolve the recipient (skipping the alert when that
yields `none`), send the email (a rejected send throws out of the
iteration), persist the trigger timestamp and count the alert as
processed.  The returned `Nat` is the increment to `processed`. -/
def processAlert (env : CronEnv) (alert : AlertRow) (st : EngineState) :
    Except (EngineState × List CronEvent) (Nat × EngineState × List CronEvent) :=
  match fetchMarket env alert.market_slug st with
  | (.error _, st1, evs1) => .error (st1, evs1)
  | (.ok market, st1, evs1) =>
    let (shouldTrigger, st2) := evaluateAlert alert market st1
    if !shouldTrigger then .ok (0, st2, evs1)
    else
      match resolveUserEmail env alert.user_id st2 with
      | (none, st3, evs2) => .ok (0, st3, evs1 ++ evs2)
      | (some recipient, st3, evs2) =>
        let sendEv := CronEvent.emailSend alert.id recipient
        match env.sendOracle alert.id with
        | .error _ => .error (st3, evs1 ++ evs2 ++ [sendEv])
        | .ok _ =>
          .ok (1, st3, evs1 ++ evs2 ++ [sendEv] ++ markAlertTriggered env alert.id)

/-- The `for` loop of `POST` over the loaded alerts: a thrown iteration
(`.error`) aborts the remaining alerts; otherwise the `processed`
increments are summed and the traces concatenated. -/
def batchLoop (env : CronEnv) : List AlertRow → EngineState →
    Except (EngineState × List CronEvent) (Nat × EngineState × List CronEvent)
  | [], st => .ok (0, st, [])
  | alert :: rest, st =>
    match processAlert env alert st with
    | .error (st', evs) => .error (st', evs)
    | .ok (inc, st', evs) =>
      match batchLoop env rest st' with
      | .error (st'', evs') => .error (st'', evs ++ evs')
      | .ok (n, st'', evs') => .ok (inc + n, st'', evs ++ evs')

/-- The three responses the route can produce. -/
inductive CronResponse where
  | success (processed : Nat)
  | unauthorized
  | cronFailed
deriving DecidableEq

/-- The `POST` route handler.  An unauthorized request returns 401 before
any processing.  A missing `CRON_SECRET` throws outside the `try` block
(`.error`).  Inside the `try`, the alert bulk load runs first (recorded
as `alertsLoad`); a failed load, or any exception escaping the loop,
is caught by the surrounding `catch` and reported as `CRON_FAILED`,
keeping whatever cache mutations already happened.  Otherwise the
response carries `success` and the processed count. -/
def POST (env : CronEnv) (st : EngineState) :
    Except Unit (CronResponse × EngineState × List CronEvent) :=
  match isCronAuthorized env.authHeader env.cronSecret with
  | .error e => .error e
  | .ok false => .ok (CronResponse.unauthorized, st, [])
  | .ok true =>
    match env.alertsResult with
    | .error _ => .ok (CronResponse.cronFailed, st, [CronEvent.alertsLoad])
    | .ok alerts =>
      if alerts = [] then .ok (CronResponse.success 0, st, [CronEvent.alertsLoad])
      else
        match batchLoop env alerts st with
        | .error (st', evs) =>
          .ok (CronResponse.cronFailed, st', CronEvent.alertsLoad :: evs)
        | .ok (n, st', evs) =>
          .ok (CronResponse.success n, st', CronEvent.alertsLoad :: evs)

/-- The response part of a handler run (`none` when the handler threw). -/
def responseOf (r : Except Unit (CronResponse × EngineState × List CronEvent)) :
    Option CronResponse :=
  match r with
  | .error _ => none
  | .ok (resp, _, _) => some resp

/-- The trace part of a handler run. -/
def eventsOf (r : Except Unit (CronResponse × EngineState × List CronEvent)) :
    List CronEvent :=
  match r with
  | .error _ => []
  | .ok (_, _, evs) => evs

/-- The metric resolution described by the specification: `volume` is the
snapshot's total volume, `probability` and `price` come from the first
entry of the outcome sequence (`0` when the sequence is empty), and an
unrecognized metric resolves to `0`.  Stated separately from
`evaluateCondition` so the evaluator can be proved to refine it. -/
def resolvedMetricSpec (c : AlertCondition) (m : MarketData) : ℚ :=
  if c.metric = "volume".toList then m.totalVolume
  else if c.metric = "probability".toList then
    match m.outcomes with
    | [] => 0
    | o :: _ => o.probability
  else if c.metric = "price".toList then
    match m.outcomes with
    | [] => 0
    | o :: _ => o.price
  else 0

/-- A snapshot whose only outcome carries volume exactly `10000`. -/
def whaleMarket : MarketData :=
  { slug := "m".toList, title := "M".toList, totalVolume := 100,
    outcomes := [{ id := "o1".toList, label := "Yes".toList, price := 1/2,
                   probability := 1/2, volume := 10000 }],
    favoriteOutcomeId := some ("o1".toList) }

/-- A snapshot whose favorite outcome identifier is the empty string. -/
def emptyFavoriteMarket : MarketData :=
  { slug := "m".toList, title := "M".toList, totalVolume := 50,
    outcomes := [], favoriteOutcomeId := some [] }

/-- Engine state recording favorite `"x"` for alert `"a"`. -/
def flipRecordedState : EngineState :=
  { marketCache := [], favoriteOutcomeCache := [("a".toList, some ("x".toList))],
    volumeCache := [], userEmailCache := [] }

/-- A snapshot with one small-volume outcome and no favorite. -/
def smallMarket : MarketData :=
  { slug := "n".toList, title := "N".toList, totalVolume := 100,
    outcomes := [{ id := "o2".toList, label := "No".toList, price := 1/4,
                   probability := 1/4, volume := 500 }],
    favoriteOutcomeId := none }

/-- The condition `volume > 5`. -/
def condVolGt5 : AlertCondition :=
  { metric := "volume".toList, operator := "gt".toList, value := 5 }

/-- Every memoized market entry is the settled result of the upstream
oracle for its key (holds for the empty cache and is preserved by
`fetchMarket`, which only ever stores oracle results). -/
def marketCacheConsistent (env : CronEnv) (st : EngineState) : Prop :=
  ∀ slug r, mapGet slug st.marketCache = some r → r = env.marketOracle slug

/-- Every memoized user-email entry is the settled result of the
user-directory oracle for its key. -/
def userCacheConsistent (env : CronEnv) (st : EngineState) : Prop :=
  ∀ uid r, mapGet uid st.userEmailCache = some r → r = env.userOracle uid

/-- For a trace of prior dispatch/persistence activity: every persistence
update that failed has a matching log entry. -/
def persistLogged (env : CronEnv) (evs : List CronEvent) : Prop :=
  ∀ alertId, env.persistError alertId = true →
    CronEvent.persistUpdate alertId ∈ evs → CronEvent.logPersistFailure alertId ∈ evs

/-- A cache access: a market fetch or a recipient resolution. -/
inductive CacheCall where
  | market (slug : Str)
  | user (userId : Str)

/-- The value a cache access returns to its caller. -/
inductive CallResult where
  | market (r : Except Unit MarketData)
  | user (r : Option Str)

/-- The result each access is expected to return: the oracle's settled
result for the key, whatever the cache state. -/
def expectedResult (env : CronEnv) : CacheCall → CallResult
  | .market slug => .market (env.marketOracle slug)
  | .user uid => .user (env.userOracle uid)

/-- Run a sequence of cache accesses left to right, threading the caches
and collecting the upstream-call trace and per-access results. -/
def runCalls (env : CronEnv) : List CacheCall → EngineState →
    EngineState × List CronEvent × List CallResult
  | [], st => (st, [], [])
  | c :: rest, st =>
    match c with
    | .market slug =>
      let (r, st', evs) := fetchMarket env slug st
      let (st'', evs', rs) := runCalls env rest st'
      (st'', evs ++ evs', CallResult.market r :: rs)
    | .user uid =>
      let (r, st', evs) := resolveUserEmail env uid st
      let (st'', evs', rs) := runCalls env rest st'
      (st'', evs ++ evs', CallResult.user r :: rs)

/-- Number of occurrences of an event in a trace. -/
def countOccurrences (e : CronEvent) : List CronEvent → Nat
  | [] => 0
  | x :: rest => (if x = e then 1 else 0) + countOccurrences e rest

/-- An environment whose request carries no authorization header. -/
def deniedEnv : CronEnv :=
  { cronSecret := some ("s3cret".toList), authHeader := none,
    alertsResult := .ok [], marketOracle := fun _ => Except.error (),
    userOracle := fun _ => none, sendOracle := fun _ => .ok (),
    persistError := fun _ => false }

/-- A custom alert on market `m1` that triggers on `smallMarket`. -/
def alertA : AlertRow :=
  { id := "A".toList, user_id := "u1".toList, market_slug := "m1".toList,
    type := "CUSTOM".toList, preset_type := none,
    custom_settings := some { operator := "OR".toList, conditions := [condVolGt5] },
    last_triggered_at := none }

/-- A second custom alert, on market `m2`. -/
def alertB : AlertRow :=
  { id := "B".toList, user_id := "u1".toList, market_slug := "m2".toList,
    type := "CUSTOM".toList, preset_type := none,
    custom_settings := some { operator := "OR".toList, conditions := [condVolGt5] },
    last_triggered_at := none }

/-- An authorized environment in which the notification send for alert
`A` rejects and everything else succeeds. -/
def sendFailEnv : CronEnv :=
  { cronSecret := some ("s3cret".toList), authHeader := some ("Bearer s3cret".toList),
    alertsResult := .ok [alertA, alertB],
    marketOracle := fun _ => .ok smallMarket,
    userOracle := fun _ => some ("u@example.com".toList),
    sendOracle := fun aid => if aid = "A".toList then Except.error () else .ok (),
    persistError := fun _ => false }

/-- An authorized environment in which every notification send succeeds
but every persistence update reports an error. -/
def persistFailEnv : CronEnv :=
  { cronSecret := some ("s3cret".toList), authHeader := some ("Bearer s3cret".toList),
    alertsResult := .ok [alertA, alertB],
    marketOracle := fun _ => .ok smallMarket,
    userOracle := fun _ => some ("u@example.com".toList),
    sendOracle := fun _ => .ok (),
    persistError := fun _ => true }

/-- An authorized environment whose user directory yields no address. -/
def noRecipientEnv : CronEnv :=
  { cronSecret := some ("s3cret".toList), authHeader := some ("Bearer s3cret".toList),
    alertsResult := .ok [alertA],
    marketOracle := fun _ => .ok smallMarket,
    userOracle := fun _ => none,
    sendOracle := fun _ => .ok (),
    persistError := fun _ => false }

/-! ### Lemmas and theorems -/

theorem mapGet_mapSet_self {α : Type} (k : Str) (v : α) (m : List (Str × α)) :
    mapGet k (mapSet k v m) = some v := by
  simp [mapGet, mapSet]

theorem evaluateFlipPreset_state (alertId : Str) (m : MarketData) (st : EngineState) :
    (evaluateFlipPreset alertId m st).2 =
      { st with favoriteOutcomeCache := mapSet alertId m.favoriteOutcomeId st.favoriteOutcomeCache } := by
  unfold evaluateFlipPreset
  rcases m.favoriteOutcomeId with _ | c <;>
    rcases mapGet alertId st.favoriteOutcomeCache with _ | (_ | p) <;>
    simp
  split <;> rfl

theorem evaluateWhalePreset_state (alertId : Str) (m : MarketData) (st : EngineState) :
    (evaluateWhalePreset alertId m st).2 =
      { st with volumeCache := mapSet alertId m.totalVolume st.volumeCache } := by
  rfl

/-- C6: every whale evaluation writes the snapshot's current total volume
into the per-alert volume state, and every flip evaluation writes the
snapshot's current favorite identifier (or none), regardless of whether
the evaluation triggers, so the stored state afterwards equals the
observation just evaluated. -/
theorem preset_evaluation_writes_back_state (alertId : Str) (m : MarketData) (st : EngineState) :
    mapGet alertId ((evaluateWhalePreset alertId m st).2).volumeCache = some m.totalVolume
    ∧ mapGet alertId ((evaluateFlipPreset alertId m st).2).favoriteOutcomeCache
        = some m.favoriteOutcomeId := by
  constructor
  · rw [evaluateWhalePreset_state]
    exact mapGet_mapSet_self ..
  · rw [evaluateFlipPreset_state]
    exact mapGet_mapSet_self ..

/-- C3: a rule with an empty condition list evaluates false for every
combinator; a non-empty `AND` rule evaluates true iff every condition
does, a non-empty `OR` rule iff at least one does; and a custom alert
whose rule payload is absent evaluates false. -/
theorem custom_rule_combinator_semantics :
    (∀ (op : Str) (m : MarketData),
        evaluateCustomRule { operator := op, conditions := [] } m = false)
    ∧ (∀ (conds : List AlertCondition) (m : MarketData), conds ≠ [] →
        (evaluateCustomRule { operator := "AND".toList, conditions := conds } m = true
          ↔ ∀ c ∈ conds, evaluateCondition c m = true))
    ∧ (∀ (conds : List AlertCondition) (m : MarketData), conds ≠ [] →
        (evaluateCustomRule { operator := "OR".toList, conditions := conds } m = true
          ↔ ∃ c ∈ conds, evaluateCondition c m = true))
    ∧ (∀ (alert : AlertRow) (m : MarketData) (st : EngineState),
        alert.type = "CUSTOM".toList → alert.custom_settings = none →
        (evaluateAlert alert m st).1 = false) := by
  refine ⟨?_, ?_, ?_, ?_⟩
  · intro op m
    simp [evaluateCustomRule]
  · intro conds m hne
    simp [evaluateCustomRule, hne, List.all_eq_true]
  · intro conds m hne
    have hop : ("OR".toList : Str) ≠ "AND".toList := by decide
    simp [evaluateCustomRule, hne, hop, List.any_eq_true]
  · intro alert m st h1 h2
    unfold evaluateAlert
    rw [h1, h2]
    rw [if_neg (by decide)]

/-- C4: `evaluateCondition` refines the specified metric resolution
(`resolvedMetricSpec`) with a strict comparison: `gt` triggers iff the
resolved value strictly exceeds the threshold, `lt` iff it is strictly
below, and a resolved value equal to the threshold triggers neither. -/
theorem condition_metric_resolution_and_strictness (c : AlertCondition) (m : MarketData) :
    (c.operator = "gt".toList →
      (evaluateCondition c m = true ↔ c.value < resolvedMetricSpec c m))
    ∧ (c.operator = "lt".toList →
      (evaluateCondition c m = true ↔ resolvedMetricSpec c m < c.value))
    ∧ (resolvedMetricSpec c m = c.value → evaluateCondition c m = false) := by
  have heval : evaluateCondition c m =
      if c.operator = "gt".toList then decide (c.value < resolvedMetricSpec c m)
      else decide (resolvedMetricSpec c m < c.value) := by
    unfold evaluateCondition resolvedMetricSpec
    cases m.outcomes <;> simp
  refine ⟨?_, ?_, ?_⟩
  · intro h
    rw [heval, if_pos h]
    simp
  · intro h
    have hne : ¬ c.operator = "gt".toList := by rw [h]; decide
    rw [heval, if_neg hne]
    simp
  · intro h
    rw [heval, h]
    split <;> simp

/-- C5 counterexample: with favorite `"x"` recorded for alert `"a"` and a
snapshot whose favorite identifier is present but empty, both identifiers
are present and differ, yet the flip evaluation returns false (the code
treats the empty string as falsy). -/
theorem flip_empty_favorite_breaks_claim :
    emptyFavoriteMarket.favoriteOutcomeId = some []
    ∧ mapGet ("a".toList) flipRecordedState.favoriteOutcomeCache = some (some ("x".toList))
    ∧ (some ([] : Str)) ≠ some ("x".toList)
    ∧ (evaluateFlipPreset ("a".toList) emptyFavoriteMarket flipRecordedState).1 = false := by
  refine ⟨rfl, rfl, by decide, rfl⟩

/-- C5 (amended): the flip evaluation returns true iff the snapshot's
current favorite identifier and the previously recorded favorite for the
alert are both present and non-empty and they differ; in particular a
first-ever evaluation (nothing recorded) returns false, and an
evaluation whose current favorite equals the recorded one returns
false. -/
theorem flip_trigger_iff_nonempty_favorites_differ (alertId : Str) (m : MarketData)
    (st : EngineState) :
    ((evaluateFlipPreset alertId m st).1 = true ↔
      ∃ c p, m.favoriteOutcomeId = some c ∧ c ≠ [] ∧
        mapGet alertId st.favoriteOutcomeCache = some (some p) ∧ p ≠ [] ∧ c ≠ p)
    ∧ (mapGet alertId st.favoriteOutcomeCache = none →
        (evaluateFlipPreset alertId m st).1 = false)
    ∧ (mapGet alertId st.favoriteOutcomeCache = some m.favoriteOutcomeId →
        (evaluateFlipPreset alertId m st).1 = false) := by
  unfold evaluateFlipPreset
  rcases hm : m.favoriteOutcomeId with _ | c <;>
    rcases hp : mapGet alertId st.favoriteOutcomeCache with _ | (_ | p) <;>
    simp [hm, hp]
  by_cases hc : c = []
  · simp [hc]
  · by_cases hpe : p = []
    · simp [hpe]
    · simp [hc, hpe]
      intro h
      simp [h]

/-- C1 counterexample: the very first whale evaluation of alert `"a"`
(no volume recorded in the fresh state) triggers on a snapshot with an
outcome of volume `10000`, because the large-trade disjunct does not
depend on the recorded history. -/
theorem whale_first_observation_can_trigger :
    mapGet ("a".toList) initState.volumeCache = none
    ∧ (evaluateWhalePreset ("a".toList) whaleMarket initState).1 = true := by
  exact ⟨rfl, by with_unfolding_all rfl⟩

/-- C1 (amended): the first-ever whale evaluation of an alert returns
false for every snapshot whose total volume is non-negative and in which
every outcome's volume is below `10000`; with no recorded volume the
previous volume defaults to the current one, so the spike test cannot
fire, and without a large outcome the large-trade test cannot fire. -/
theorem whale_first_observation_without_large_outcome (alertId : Str) (m : MarketData)
    (st : EngineState)
    (hnone : mapGet alertId st.volumeCache = none)
    (hvol : 0 ≤ m.totalVolume)
    (hout : ∀ o ∈ m.outcomes, o.volume < 10000) :
    (evaluateWhalePreset alertId m st).1 = false := by
  unfold evaluateWhalePreset
  simp [hnone]
  constructor
  · have h12 : (1.2 : ℚ) = 6 / 5 := by norm_num
    rw [h12]
    nlinarith
  · intro o ho
    exact hout o ho

/-- Witness for C1 (amended): a concrete first-ever whale evaluation on a
snapshot with volume `100` and a single outcome of volume `500` returns
false. -/
theorem whale_first_observation_without_large_outcome_witness :
    (evaluateWhalePreset ("b".toList) smallMarket initState).1 = false :=
  whale_first_observation_without_large_outcome ("b".toList) smallMarket initState rfl
    (by norm_num [smallMarket]) (by norm_num [smallMarket])

/-- Witness for C3: the `AND` semantics applied to a concrete singleton
rule. -/
theorem custom_rule_combinator_semantics_witness :
    evaluateCustomRule { operator := "AND".toList, conditions := [condVolGt5] } smallMarket = true
      ↔ ∀ c ∈ [condVolGt5], evaluateCondition c smallMarket = true :=
  custom_rule_combinator_semantics.2.1 [condVolGt5] smallMarket (by simp)

/-- Witness for C4: the `gt` clause applied to the concrete condition
`volume > 5`. -/
theorem condition_metric_resolution_and_strictness_witness :
    evaluateCondition condVolGt5 smallMarket = true
      ↔ condVolGt5.value < resolvedMetricSpec condVolGt5 smallMarket :=
  (condition_metric_resolution_and_strictness condVolGt5 smallMarket).1 rfl

/-- Witness for C5 (amended): a concrete first-ever flip evaluation
(no recorded favorite) returns false. -/
theorem flip_trigger_iff_nonempty_favorites_differ_witness :
    (evaluateFlipPreset ("b".toList) emptyFavoriteMarket initState).1 = false :=
  (flip_trigger_iff_nonempty_favorites_differ ("b".toList) emptyFavoriteMarket initState).2.1 rfl

theorem jsReplaceFirst_of_not_contains (pat repl s : Str) (h : containsSeq pat s = false) :
    jsReplaceFirst pat repl s = s := by
  induction s with
  | nil =>
    unfold containsSeq at h
    unfold jsReplaceFirst
    simp [h]
  | cons c cs ih =>
    unfold containsSeq at h
    rw [Bool.or_eq_false_iff] at h
    unfold jsReplaceFirst
    rw [if_neg (by simp [h.1]), ih h.2]

/-- C9: a request whose credential check comes back negative is answered
with the 401 unauthorized response and nothing else happens: the caches
are returned unchanged and the trace is empty (no alert load, no market
fetch, no user lookup, no send, no persistence update). -/
theorem unauthorized_request_no_processing (env : CronEnv) (st : EngineState)
    (h : isCronAuthorized env.authHeader env.cronSecret = .ok false) :
    POST env st = .ok (CronResponse.unauthorized, st, []) := by
  unfold POST
  rw [h]

/-- Witness for C9: a concrete request with no authorization header. -/
theorem unauthorized_request_no_processing_witness :
    POST deniedEnv initState = .ok (CronResponse.unauthorized, initState, []) :=
  unauthorized_request_no_processing deniedEnv initState rfl

/-- C10: with a non-empty configured secret, a request is authorized
exactly when its authorization header, after removing the first
occurrence of the substring `'Bearer '` and trimming surrounding
whitespace, equals the secret (a missing header is never authorized);
in particular, for a secret that does not contain `'Bearer '` and has no
surrounding whitespace, a header holding the raw secret with no
`'Bearer '` marker is also accepted. -/
theorem authorization_token_semantics (header : Option Str) (sec : Str) (hsec : sec ≠ []) :
    (isCronAuthorized header (some sec) = .ok true ↔
      ∃ h, header = some h ∧ jsTrim (jsReplaceFirst bearerTag [] h) = sec)
    ∧ (containsSeq bearerTag sec = false → jsTrim sec = sec →
        isCronAuthorized (some sec) (some sec) = .ok true) := by
  constructor
  · cases header with
    | none => simp [isCronAuthorized, hsec]
    | some h => simp [isCronAuthorized, hsec]
  · intro hni htr
    simp only [isCronAuthorized, if_neg hsec]
    rw [jsReplaceFirst_of_not_contains _ _ _ hni, htr]
    simp

/-- Witness for C10: the raw secret `s3cret` sent without the `Bearer `
marker is accepted. -/
theorem authorization_token_semantics_witness :
    isCronAuthorized (some ("s3cret".toList)) (some ("s3cret".toList)) = .ok true :=
  (authorization_token_semantics (some ("s3cret".toList)) ("s3cret".toList)
    (by simp)).2 rfl rfl

theorem mapGet_mapSet_get {α : Type} (k k' : Str) (v : α) (m : List (Str × α)) :
    mapGet k' (mapSet k v m) = if k = k' then some v else mapGet k' m := by
  rfl

theorem marketCacheConsistent_of_eq {env : CronEnv} {st st' : EngineState}
    (h : st'.marketCache = st.marketCache) (hc : marketCacheConsistent env st) :
    marketCacheConsistent env st' := by
  intro slug r hr
  exact hc slug r (by rw [← h]; exact hr)

theorem userCacheConsistent_of_eq {env : CronEnv} {st st' : EngineState}
    (h : st'.userEmailCache = st.userEmailCache) (hc : userCacheConsistent env st) :
    userCacheConsistent env st' := by
  intro uid r hr
  exact hc uid r (by rw [← h]; exact hr)

theorem fetchMarket_spec (env : CronEnv) (slug : Str) (st : EngineState)
    (hc : marketCacheConsistent env st) :
    (fetchMarket env slug st).1 = env.marketOracle slug
    ∧ marketCacheConsistent env (fetchMarket env slug st).2.1
    ∧ (fetchMarket env slug st).2.1.userEmailCache = st.userEmailCache
    ∧ (fetchMarket env slug st).2.1.favoriteOutcomeCache = st.favoriteOutcomeCache
    ∧ (fetchMarket env slug st).2.1.volumeCache = st.volumeCache
    ∧ (∀ e ∈ (fetchMarket env slug st).2.2, e = CronEvent.marketUpstream slug) := by
  unfold fetchMarket
  cases hm : mapGet slug st.marketCache with
  | some r =>
    refine ⟨hc slug r hm, hc, rfl, rfl, rfl, by simp⟩
  | none =>
    refine ⟨rfl, ?_, rfl, rfl, rfl, by simp⟩
    intro s r hr
    rw [mapGet_mapSet_get] at hr
    by_cases hss : slug = s
    · subst hss
      rw [if_pos rfl] at hr
      exact (Option.some.injEq .. ▸ hr).symm
    · rw [if_neg hss] at hr
      exact hc s r hr

theorem resolveUserEmail_spec (env : CronEnv) (uid : Str) (st : EngineState)
    (hc : userCacheConsistent env st) :
    (resolveUserEmail env uid st).1 = env.userOracle uid
    ∧ userCacheConsistent env (resolveUserEmail env uid st).2.1
    ∧ (resolveUserEmail env uid st).2.1.marketCache = st.marketCache
    ∧ (resolveUserEmail env uid st).2.1.favoriteOutcomeCache = st.favoriteOutcomeCache
    ∧ (resolveUserEmail env uid st).2.1.volumeCache = st.volumeCache
    ∧ (∀ e ∈ (resolveUserEmail env uid st).2.2, e = CronEvent.userUpstream uid) := by
  unfold resolveUserEmail
  cases hm : mapGet uid st.userEmailCache with
  | some r =>
    refine ⟨hc uid r hm, hc, rfl, rfl, rfl, by simp⟩
  | none =>
    refine ⟨rfl, ?_, rfl, rfl, rfl, by simp⟩
    intro u r hr
    rw [mapGet_mapSet_get] at hr
    by_cases huu : uid = u
    · subst huu
      rw [if_pos rfl] at hr
      exact (Option.some.injEq .. ▸ hr).symm
    · rw [if_neg huu] at hr
      exact hc u r hr

theorem evaluateAlert_caches (a : AlertRow) (m : MarketData) (st : EngineState) :
    ((evaluateAlert a m st).2).marketCache = st.marketCache
    ∧ ((evaluateAlert a m st).2).userEmailCache = st.userEmailCache := by
  unfold evaluateAlert
  split
  · split
    · split
      · simp [evaluateWhalePreset_state]
      · split
        · simp [evaluateFlipPreset_state]
        · exact ⟨rfl, rfl⟩
    · exact ⟨rfl, rfl⟩
  · split
    · exact ⟨rfl, rfl⟩
    · exact ⟨rfl, rfl⟩

/-- C7: for an alert whose recipient resolution yields no address, the
loop iteration completes normally with a zero increment to the processed
count and a trace containing no notification send and no persistence
update for that alert (the alert is skipped and the batch continues). -/
theorem recipient_none_skips_alert (env : CronEnv) (a : AlertRow) (st : EngineState)
    (m : MarketData)
    (hmc : marketCacheConsistent env st)
    (huc : userCacheConsistent env st)
    (hm : env.marketOracle a.market_slug = .ok m)
    (hu : env.userOracle a.user_id = none) :
    ∃ st' evs, processAlert env a st = .ok (0, st', evs)
      ∧ (∀ r, CronEvent.emailSend a.id r ∉ evs)
      ∧ CronEvent.persistUpdate a.id ∉ evs := by
  obtain ⟨hf1, hf2, hf3, hf4, hf5, hf6⟩ := fetchMarket_spec env a.market_slug st hmc
  rcases hfm : fetchMarket env a.market_slug st with ⟨res, st1, evs1⟩
  rw [hfm] at hf1 hf2 hf3 hf4 hf5 hf6
  simp only at hf1 hf2 hf3 hf4 hf5 hf6
  rw [hm] at hf1
  subst hf1
  unfold processAlert
  rw [hfm]
  rcases hev : evaluateAlert a m st1 with ⟨trig, st2⟩
  cases trig with
  | false =>
    refine ⟨st2, evs1, by simp [hev], ?_, ?_⟩
    · intro r hmem
      have := hf6 _ hmem
      simp at this
    · intro hmem
      have := hf6 _ hmem
      simp at this
  | true =>
    have hcaches := evaluateAlert_caches a m st1
    rw [hev] at hcaches
    have huc2 : userCacheConsistent env st2 := by
      refine userCacheConsistent_of_eq ?_ (userCacheConsistent_of_eq hf3 huc)
      exact hcaches.2
    obtain ⟨hr1, hr2, hr3, hr4, hr5, hr6⟩ := resolveUserEmail_spec env a.user_id st2 huc2
    rcases hru : resolveUserEmail env a.user_id st2 with ⟨rr, st3, evs2⟩
    rw [hru] at hr1 hr6
    simp only at hr1 hr6
    rw [hu] at hr1
    subst hr1
    refine ⟨st3, evs1 ++ evs2, by simp [hev, hru], ?_, ?_⟩
    · intro r hmem
      rcases List.mem_append.mp hmem with hh | hh
      · have := hf6 _ hh
        simp at this
      · have := hr6 _ hh
        simp at this
    · intro hmem
      rcases List.mem_append.mp hmem with hh | hh
      · have := hf6 _ hh
        simp at this
      · have := hr6 _ hh
        simp at this

/-- Witness for C7: concrete environment whose user directory yields no
address; the single triggered alert is skipped. -/
theorem recipient_none_skips_alert_witness :
    ∃ st' evs, processAlert noRecipientEnv alertA initState = .ok (0, st', evs)
      ∧ (∀ r, CronEvent.emailSend alertA.id r ∉ evs)
      ∧ CronEvent.persistUpdate alertA.id ∉ evs :=
  recipient_none_skips_alert noRecipientEnv alertA initState smallMarket
    (fun s r h => by simp [initState, mapGet] at h)
    (fun u r h => by simp [initState, mapGet] at h) rfl rfl

theorem persistLogged_append {env : CronEnv} {l1 l2 : List CronEvent}
    (h1 : persistLogged env l1) (h2 : persistLogged env l2) :
    persistLogged env (l1 ++ l2) := by
  intro alertId hp hm
  rw [List.mem_append] at hm ⊢
  rcases hm with hm | hm
  · exact Or.inl (h1 alertId hp hm)
  · exact Or.inr (h2 alertId hp hm)

theorem persistLogged_of_no_persist {env : CronEnv} {l : List CronEvent}
    (h : ∀ alertId, CronEvent.persistUpdate alertId ∉ l) : persistLogged env l :=
  fun alertId _ hm => absurd hm (h alertId)

theorem persistLogged_mark (env : CronEnv) (aId : Str) :
    persistLogged env (markAlertTriggered env aId) := by
  intro alertId hp hm
  unfold markAlertTriggered at hm ⊢
  by_cases h : env.persistError aId
  · simp [h] at hm
    simp [h, hm]
  · simp [h] at hm
    rw [hm] at hp
    rw [hp] at h
    simp at h

theorem resolveUserEmail_caches (env : CronEnv) (uid : Str) (st : EngineState) :
    (resolveUserEmail env uid st).2.1.marketCache = st.marketCache
    ∧ (∀ e ∈ (resolveUserEmail env uid st).2.2, e = CronEvent.userUpstream uid) := by
  unfold resolveUserEmail
  cases hm : mapGet uid st.userEmailCache with
  | some r => exact ⟨rfl, by simp⟩
  | none => exact ⟨rfl, by simp⟩

theorem processAlert_ok (env : CronEnv) (a : AlertRow) (st : EngineState)
    (hmc : marketCacheConsistent env st)
    (hm : ∃ m, env.marketOracle a.market_slug = .ok m)
    (hs : env.sendOracle a.id = .ok ()) :
    ∃ inc st' evs, processAlert env a st = .ok (inc, st', evs)
      ∧ marketCacheConsistent env st'
      ∧ persistLogged env evs := by
  obtain ⟨m, hm⟩ := hm
  obtain ⟨hf1, hf2, hf3, hf4, hf5, hf6⟩ := fetchMarket_spec env a.market_slug st hmc
  rcases hfm : fetchMarket env a.market_slug st with ⟨res, st1, evs1⟩
  rw [hfm] at hf1 hf2 hf3 hf4 hf5 hf6
  simp only at hf1 hf2 hf3 hf4 hf5 hf6
  rw [hm] at hf1
  subst hf1
  have hpl1 : persistLogged env evs1 := by
    refine persistLogged_of_no_persist ?_
    intro alertId hmem
    have := hf6 _ hmem
    simp at this
  unfold processAlert
  rw [hfm]
  rcases hev : evaluateAlert a m st1 with ⟨trig, st2⟩
  have hcaches := evaluateAlert_caches a m st1
  rw [hev] at hcaches
  have hmc2 : marketCacheConsistent env st2 :=
    marketCacheConsistent_of_eq hcaches.1 hf2
  cases trig with
  | false =>
    exact ⟨0, st2, evs1, by simp [hev], hmc2, hpl1⟩
  | true =>
    have hrc := resolveUserEmail_caches env a.user_id st2
    rcases hru : resolveUserEmail env a.user_id st2 with ⟨rr, st3, evs2⟩
    rw [hru] at hrc
    simp only at hrc
    have hmc3 : marketCacheConsistent env st3 :=
      marketCacheConsistent_of_eq hrc.1 hmc2
    have hpl2 : persistLogged env evs2 := by
      refine persistLogged_of_no_persist ?_
      intro alertId hmem
      have := hrc.2 _ hmem
      simp at this
    cases rr with
    | none =>
      exact ⟨0, st3, evs1 ++ evs2, by simp [hev, hru], hmc3,
        persistLogged_append hpl1 hpl2⟩
    | some recipient =>
      refine ⟨1, st3,
        evs1 ++ evs2 ++ [CronEvent.emailSend a.id recipient] ++ markAlertTriggered env a.id,
        by simp [hev, hru, hs], hmc3, ?_⟩
      refine persistLogged_append (persistLogged_append (persistLogged_append hpl1 hpl2) ?_)
        (persistLogged_mark env a.id)
      refine persistLogged_of_no_persist ?_
      intro alertId hmem
      simp at hmem

theorem batchLoop_ok (env : CronEnv) (alerts : List AlertRow) :
    ∀ st : EngineState, marketCacheConsistent env st →
      (∀ a ∈ alerts, ∃ m, env.marketOracle a.market_slug = .ok m) →
      (∀ a ∈ alerts, env.sendOracle a.id = .ok ()) →
      ∃ n st' evs, batchLoop env alerts st = .ok (n, st', evs)
        ∧ persistLogged env evs := by
  induction alerts with
  | nil =>
    intro st _ _ _
    exact ⟨0, st, [], rfl, persistLogged_of_no_persist (by simp)⟩
  | cons a rest ih =>
    intro st hmc hmk hsend
    obtain ⟨inc, st1, evs, hpa, hc1, hpl⟩ :=
      processAlert_ok env a st hmc (hmk a (by simp)) (hsend a (by simp))
    obtain ⟨n, st2, evs', hbl, hpl'⟩ :=
      ih st1 hc1 (fun x hx => hmk x (by simp [hx])) (fun x hx => hsend x (by simp [hx]))
    refine ⟨inc + n, st2, evs ++ evs', ?_, persistLogged_append hpl hpl'⟩
    unfold batchLoop
    simp [hpa, hbl]

/-- C2 counterexample: in a concrete authorized run of two triggering
alerts where the notification send for the first alert rejects, the
rejection is not caught inside the loop: the run answers `CRON_FAILED`
(not success), the second alert's market is never fetched (the batch
does not continue), and no failure is logged for alert `A`. -/
theorem dispatch_failure_aborts_batch :
    responseOf (POST sendFailEnv initState) = some CronResponse.cronFailed
    ∧ eventsOf (POST sendFailEnv initState) =
        [CronEvent.alertsLoad, CronEvent.marketUpstream ("m1".toList),
         CronEvent.userUpstream ("u1".toList),
         CronEvent.emailSend ("A".toList) ("u@example.com".toList)] := by
  constructor
  · with_unfolding_all rfl
  · with_unfolding_all rfl

/-- C2 (amended): trigger-timestamp persistence failures inside the loop
are caught and logged and never abort the batch: whenever the request is
authorized, the alert load succeeds, every market fetch resolves and
every notification send resolves, the run answers with the success
response no matter which persistence updates fail, and every failed
persistence update inside the trace has a matching log entry.  (A
rejecting notification send, by contrast, escapes the loop to the outer
boundary and yields `CRON_FAILED`, as the counterexample shows.) -/
theorem persist_failure_isolated_batch_succeeds (env : CronEnv) (alerts : List AlertRow)
    (st : EngineState)
    (hauth : isCronAuthorized env.authHeader env.cronSecret = .ok true)
    (halerts : env.alertsResult = .ok alerts)
    (hmc : marketCacheConsistent env st)
    (hmk : ∀ a ∈ alerts, ∃ m, env.marketOracle a.market_slug = .ok m)
    (hsend : ∀ a ∈ alerts, env.sendOracle a.id = .ok ()) :
    ∃ n st' evs, POST env st = .ok (CronResponse.success n, st', evs)
      ∧ persistLogged env evs := by
  simp only [POST, hauth, halerts]
  by_cases hnil : alerts = []
  · rw [if_pos hnil]
    exact ⟨0, st, [CronEvent.alertsLoad], rfl,
      persistLogged_of_no_persist (by simp)⟩
  · rw [if_neg hnil]
    obtain ⟨n, st', evs, hbl, hpl⟩ := batchLoop_ok env alerts st hmc hmk hsend
    refine ⟨n, st', CronEvent.alertsLoad :: evs, ?_, ?_⟩
    · simp [hbl]
    · intro alertId hp hmem
      rcases List.mem_cons.mp hmem with hmem | hmem
      · simp at hmem
      · exact List.mem_cons_of_mem _ (hpl alertId hp hmem)

/-- Witness for C2 (amended): a concrete authorized run of two
triggering alerts in which every persistence update fails still answers
with the success response, and the failures are logged. -/
theorem persist_failure_isolated_batch_succeeds_witness :
    ∃ n st' evs, POST persistFailEnv initState = .ok (CronResponse.success n, st', evs)
      ∧ persistLogged persistFailEnv evs :=
  persist_failure_isolated_batch_succeeds persistFailEnv [alertA, alertB] initState rfl rfl
    (fun s r h => by simp [initState, mapGet] at h)
    (fun a _ => ⟨smallMarket, rfl⟩)
    (fun a _ => rfl)

theorem countOccurrences_append (e : CronEvent) (l1 l2 : List CronEvent) :
    countOccurrences e (l1 ++ l2) = countOccurrences e l1 + countOccurrences e l2 := by
  induction l1 with
  | nil => simp [countOccurrences]
  | cons x rest ih =>
    simp [countOccurrences, ih]
    omega

theorem runCalls_results (env : CronEnv) (calls : List CacheCall) :
    ∀ st : EngineState, marketCacheConsistent env st → userCacheConsistent env st →
      (runCalls env calls st).2.2 = calls.map (expectedResult env) := by
  induction calls with
  | nil =>
    intro st _ _
    rfl
  | cons c rest ih =>
    intro st hmc huc
    cases c with
    | market slug =>
      obtain ⟨hf1, hf2, hf3, _, _, _⟩ := fetchMarket_spec env slug st hmc
      rcases hfm : fetchMarket env slug st with ⟨r, st', evs⟩
      rw [hfm] at hf1 hf2 hf3
      simp only at hf1 hf2 hf3
      have huc' : userCacheConsistent env st' := userCacheConsistent_of_eq hf3 huc
      simp [runCalls, hfm, expectedResult, hf1, ih st' hf2 huc']
    | user uid =>
      obtain ⟨hr1, hr2, hr3, _, _, _⟩ := resolveUserEmail_spec env uid st huc
      rcases hru : resolveUserEmail env uid st with ⟨r, st', evs⟩
      rw [hru] at hr1 hr2 hr3
      simp only at hr1 hr2 hr3
      have hmc' : marketCacheConsistent env st' := marketCacheConsistent_of_eq hr3 hmc
      simp [runCalls, hru, expectedResult, hr1, ih st' hmc' hr2]

theorem runCalls_market_count (env : CronEnv) (slug : Str) (calls : List CacheCall) :
    ∀ st : EngineState,
      (mapGet slug st.marketCache ≠ none →
        countOccurrences (CronEvent.marketUpstream slug) (runCalls env calls st).2.1 = 0)
      ∧ countOccurrences (CronEvent.marketUpstream slug) (runCalls env calls st).2.1 ≤ 1 := by
  induction calls with
  | nil =>
    intro st
    simp [runCalls, countOccurrences]
  | cons c rest ih =>
    intro st
    cases c with
    | market slug' =>
      cases hm : mapGet slug' st.marketCache with
      | some r =>
        constructor
        · intro hne
          simp only [runCalls, fetchMarket, hm, countOccurrences_append, countOccurrences]
          simpa using (ih st).1 hne
        · simp only [runCalls, fetchMarket, hm, countOccurrences_append, countOccurrences]
          simpa using (ih st).2
      | none =>
        by_cases hss : slug' = slug
        · subst hss
          refine ⟨fun hne => absurd hm hne, ?_⟩
          have h0 := (ih { st with marketCache := mapSet slug' (env.marketOracle slug') st.marketCache }).1 (by simp [mapGet_mapSet_get])
          simp only [runCalls, fetchMarket, hm, countOccurrences_append, countOccurrences]
          simp [h0]
        · constructor
          · intro hne
            have h0 := (ih { st with marketCache := mapSet slug' (env.marketOracle slug') st.marketCache }).1 (by simpa [mapGet_mapSet_get, hss] using hne)
            simp only [runCalls, fetchMarket, hm, countOccurrences_append, countOccurrences]
            simp [hss, h0]
          · have h1 := (ih { st with marketCache := mapSet slug' (env.marketOracle slug') st.marketCache }).2
            simp only [runCalls, fetchMarket, hm, countOccurrences_append, countOccurrences]
            simpa [hss] using h1
    | user uid =>
      cases hm : mapGet uid st.userEmailCache with
      | some r =>
        constructor
        · intro hne
          simp only [runCalls, resolveUserEmail, hm, countOccurrences_append, countOccurrences]
          simpa using (ih st).1 hne
        · simp only [runCalls, resolveUserEmail, hm, countOccurrences_append, countOccurrences]
          simpa using (ih st).2
      | none =>
        constructor
        · intro hne
          have h0 := (ih { st with userEmailCache := mapSet uid (env.userOracle uid) st.userEmailCache }).1 hne
          simp only [runCalls, resolveUserEmail, hm, countOccurrences_append, countOccurrences]
          simp [h0]
        · have h1 := (ih { st with userEmailCache := mapSet uid (env.userOracle uid) st.userEmailCache }).2
          simp only [runCalls, resolveUserEmail, hm, countOccurrences_append, countOccurrences]
          simpa using h1

theorem runCalls_user_count (env : CronEnv) (uid : Str) (calls : List CacheCall) :
    ∀ st : EngineState,
      (mapGet uid st.userEmailCache ≠ none →
        countOccurrences (CronEvent.userUpstream uid) (runCalls env calls st).2.1 = 0)
      ∧ countOccurrences (CronEvent.userUpstream uid) (runCalls env calls st).2.1 ≤ 1 := by
  induction calls with
  | nil =>
    intro st
    simp [runCalls, countOccurrences]
  | cons c rest ih =>
    intro st
    cases c with
    | user uid' =>
      cases hm : mapGet uid' st.userEmailCache with
      | some r =>
        constructor
        · intro hne
          simp only [runCalls, resolveUserEmail, hm, countOccurrences_append, countOccurrences]
          simpa using (ih st).1 hne
        · simp only [runCalls, resolveUserEmail, hm, countOccurrences_append, countOccurrences]
          simpa using (ih st).2
      | none =>
        by_cases huu : uid' = uid
        · subst huu
          refine ⟨fun hne => absurd hm hne, ?_⟩
          have h0 := (ih { st with userEmailCache := mapSet uid' (env.userOracle uid') st.userEmailCache }).1 (by simp [mapGet_mapSet_get])
          simp only [runCalls, resolveUserEmail, hm, countOccurrences_append, countOccurrences]
          simp [h0]
        · constructor
          · intro hne
            have h0 := (ih { st with userEmailCache := mapSet uid' (env.userOracle uid') st.userEmailCache }).1 (by simpa [mapGet_mapSet_get, huu] using hne)
            simp only [runCalls, resolveUserEmail, hm, countOccurrences_append, countOccurrences]
            simp [huu, h0]
          · have h1 := (ih { st with userEmailCache := mapSet uid' (env.userOracle uid') st.userEmailCache }).2
            simp only [runCalls, resolveUserEmail, hm, countOccurrences_append, countOccurrences]
            simpa [huu] using h1
    | market slug =>
      cases hm : mapGet slug st.marketCache with
      | some r =>
        constructor
        · intro hne
          simp only [runCalls, fetchMarket, hm, countOccurrences_append, countOccurrences]
          simpa using (ih st).1 hne
        · simp only [runCalls, fetchMarket, hm, countOccurrences_append, countOccurrences]
          simpa using (ih st).2
      | none =>
        constructor
        · intro hne
          have h0 := (ih { st with marketCache := mapSet slug (env.marketOracle slug) st.marketCache }).1 hne
          simp only [runCalls, fetchMarket, hm, countOccurrences_append, countOccurrences]
          simp [h0]
        · have h1 := (ih { st with marketCache := mapSet slug (env.marketOracle slug) st.marketCache }).2
          simp only [runCalls, fetchMarket, hm, countOccurrences_append, countOccurrences]
          simpa using h1

/-- C8: within one batch (caches starting empty), any sequence of market
fetches and recipient resolutions invokes the market-data collaborator
at most once per distinct market identifier and the user-directory
collaborator at most once per distinct user identifier, and every call
returns the collaborator's settled result for its key — so all calls
with the same key, including later ones, return the same memoized
result, a failed market fetch included (it is not retried). -/
theorem caches_single_upstream_call_per_key (env : CronEnv) (calls : List CacheCall) :
    (∀ slug, countOccurrences (CronEvent.marketUpstream slug)
        (runCalls env calls initState).2.1 ≤ 1)
    ∧ (∀ uid, countOccurrences (CronEvent.userUpstream uid)
        (runCalls env calls initState).2.1 ≤ 1)
    ∧ (runCalls env calls initState).2.2 = calls.map (expectedResult env) := by
  refine ⟨fun slug => (runCalls_market_count env slug calls initState).2,
    fun uid => (runCalls_user_count env uid calls initState).2,
    runCalls_results env calls initState ?_ ?_⟩
  · intro s r h
    simp [initState, mapGet] at h
  · intro u r h
    simp [initState, mapGet] at h

end PolyTrack
